import Mathlib

/-!
Verification model of the grpc-microservices sample: a user-record service
(`user-service/server/server.go`) behind an HTTP/JSON API gateway
(the gateway `main.go`).  Pure Go functions are translated to Lean
functions; the server's mutable map-under-mutex becomes explicit state
passing; gRPC transport outcomes become `Except` values supplied as
oracles to the gateway handlers.
-/

set_option maxRecDepth 4000

namespace GrpcSample

/-- A user record (`pb.User`): id, name, email, age (Go `int32`, no
arithmetic is performed on it, so `Int` suffices), creation timestamp. -/
structure User where
  id : String
  name : String
  email : String
  age : Int
  createdAt : String
deriving Repr, DecidableEq

/-- `pb.CreateUserRequest`. -/
structure CreateUserRequest where
  name : String
  email : String
  age : Int
deriving Repr, DecidableEq

/-- `pb.CreateUserResponse`: the `User` field is a Go pointer, `nil` on the
validation-failure path, hence `Option`. -/
structure CreateUserResponse where
  user : Option User
  message : String
  success : Bool
deriving Repr, DecidableEq

/-- `pb.GetUserRequest`. -/
structure GetUserRequest where
  id : String
deriving Repr, DecidableEq

/-- `pb.GetUserResponse`: on the success path the server always sets the
`User` field. -/
structure GetUserResponse where
  user : User
deriving Repr, DecidableEq

/-- `uuid.New().String()` modelled as a deterministic fresh-identifier
supply: the n-th identifier drawn in a run.  The model keeps exactly the
contract the code relies on — each draw is a fresh, non-empty string,
distinct from every other draw — using a unary encoding whose injectivity
is provable. -/
def genId (n : Nat) : String :=
  String.mk ('u' :: List.replicate n 'i')

/-- `time.Now().Format(time.RFC3339)` modelled as an abstract clock read:
the formatted timestamp of logical instant `t`.  Only the facts that the
code produces some fixed-format, non-empty string matter downstream. -/
def fmtRFC3339 (t : Nat) : String :=
  String.mk ('T' :: List.replicate t 's')

theorem genId_injective : Function.Injective genId := by
  intro a b h
  have hdata : ('u' :: List.replicate a 'i') = ('u' :: List.replicate b 'i') := by
    have := congrArg String.data h
    simpa [genId] using this
  have hlen := congrArg List.length hdata
  simpa using hlen

theorem genId_ne_empty (n : Nat) : genId n ≠ "" := by
  intro h
  have hdata := congrArg String.data h
  simp [genId] at hdata

theorem fmtRFC3339_ne_empty (t : Nat) : fmtRFC3339 t ≠ "" := by
  intro h
  have hdata := congrArg String.data h
  simp [fmtRFC3339] at hdata

/-- State of the gRPC service (`UserServer`): the in-memory map
`users map[string]*pb.User` (modelled as an association list; every key
inserted is fresh, see `WFServer`, so first-match lookup coincides with Go
map lookup), plus the fresh-identifier supply consumed by `uuid.New` and
the logical clock read by `time.Now`. -/
structure UserServer where
  users : List (String × User)
  nextFresh : Nat
  clock : Nat

/-- `NewUserServer()`: empty map. -/
def newUserServer : UserServer :=
  { users := [], nextFresh := 0, clock := 0 }

/-- Go map lookup `s.users[id]` on the association-list model. -/
def lookupUser : List (String × User) → String → Option User
  | [], _ => none
  | (k, u) :: rest, idv => if k = idv then some u else lookupUser rest idv

/-- `CreateUser`: under the write lock, if `req.Name == "" || req.Email == ""`
return a response with `Success:false, Message:"Name and email are required"`
together with the error `"validation error"` and leave the store untouched;
otherwise build a `pb.User` with a fresh id and an RFC3339 timestamp, insert
it into the map, and return it with `Success:true` and no error. -/
def createUser (s : UserServer) (req : CreateUserRequest) :
    UserServer × CreateUserResponse × Option String :=
  if req.name = "" ∨ req.email = "" then
    (s, { user := none, message := "Name and email are required", success := false },
     some "validation error")
  else
    let user : User :=
      { id := genId s.nextFresh
        name := req.name
        email := req.email
        age := req.age
        createdAt := fmtRFC3339 s.clock }
    ({ users := (user.id, user) :: s.users
       nextFresh := s.nextFresh + 1
       clock := s.clock + 1 },
     { user := some user, message := "User created successfully", success := true },
     none)

/-- `GetUser`: under the read lock, look the id up in the map; if absent
return `(nil, fmt.Errorf("user with id %s not found", req.Id))`, else the
stored record and no error.  The store is not changed (the method only
holds the read lock). -/
def getUser (s : UserServer) (req : GetUserRequest) :
    Option GetUserResponse × Option String :=
  match lookupUser s.users req.id with
  | none => (none, some ("user with id " ++ req.id ++ " not found"))
  | some u => (some { user := u }, none)

/-- The `ListUsers` send loop: iterate the map entries with counter
`count`; before each send, break (returning `nil`, i.e. no trailing error)
once `req.Limit > 0 && count >= req.Limit`; otherwise attempt
`stream.Send` — its outcome for the attempt numbered `count` is supplied
by the oracle `sendRes` (`none` = delivered, `some e` = transport error) —
returning the send error immediately on failure.  The result pairs the
list of successfully sent records with the loop's returned error. -/
def listLoop (sendRes : Nat → Option String) (limit : Int) :
    List (String × User) → Nat → List User × Option String
  | [], _ => ([], none)
  | (_, u) :: rest, count =>
    if 0 < limit ∧ limit ≤ (count : Int) then ([], none)
    else
      match sendRes count with
      | some e => ([], some e)
      | none =>
        let r := listLoop sendRes limit rest (count + 1)
        (u :: r.1, r.2)

/-- `ListUsers`: under the read lock, run the send loop over the map
starting at `count = 0`.  Returns `nil` (normal stream completion) when
the loop finishes, or the first failed send's error. -/
def listUsers (s : UserServer) (limit : Int) (sendRes : Nat → Option String) :
    List User × Option String :=
  listLoop sendRes limit s.users 0

/-! ## gRPC transport between gateway and service -/

/-- gRPC status codes the gateway's comments mention.  A plain
`fmt.Errorf` from a handler surfaces at the client as code `unknown`;
an elapsed context deadline surfaces as `deadlineExceeded`. -/
inductive GrpcCode
  | notFound
  | invalidArgument
  | deadlineExceeded
  | unavailable
  | unknown
deriving Repr, DecidableEq

/-- A remote-call failure as the gateway's client stub observes it:
a status code and the message produced by `err.Error()`. -/
structure GrpcError where
  code : GrpcCode
  msg : String
deriving Repr, DecidableEq

/-- Delivery of a unary handler outcome `(resp, err)` to the calling
client: a non-nil handler error reaches the client as a remote error of
code `unknown` (Go's `fmt.Errorf` carries no status), and the response
message is then discarded; a nil error delivers the response. -/
def unaryOutcome {α : Type} (out : α × Option String) : Except GrpcError α :=
  match out.2 with
  | some m => Except.error { code := GrpcCode.unknown, msg := m }
  | none => Except.ok out.1

/-! ## API gateway (HTTP side) -/

/-- The HTTP methods the gateway distinguishes. -/
inductive HttpMethod
  | get
  | post
  | other
deriving Repr, DecidableEq

/-- An HTTP response as the gateway writes it: status code, optional
`Content-Type` header value, body string. -/
structure HttpResponse where
  status : Nat
  contentType : Option String
  body : String
deriving Repr, DecidableEq

/-- `http.Error(w, msg, status)`: plain-text error response; the helper
appends a newline to the message. -/
def httpError (msg : String) (status : Nat) : HttpResponse :=
  { status := status
    contentType := some "text/plain; charset=utf-8"
    body := msg ++ "\n" }

/-- JSON string literal for the values flowing through this system (no
escaping model is needed: no claim inspects an encoded value containing
a quote or backslash). -/
def jsonStr (s : String) : String := "\"" ++ s ++ "\""

/-- Modelled from the spec: `encoding/json` serialization of a `pb.User`
(the generated proto Go file with its JSON field tags is not under
`src/`; the spec's field names `{name, email, age}` plus identifier and
creation timestamp are used).  No claim inspects this encoding. -/
def encodeUser (u : User) : String :=
  "\x7b\"id\":" ++ jsonStr u.id ++ ",\"name\":" ++ jsonStr u.name ++
    ",\"email\":" ++ jsonStr u.email ++ ",\"age\":" ++ toString u.age ++
    ",\"createdAt\":" ++ jsonStr u.createdAt ++ "\x7d"

/-- Modelled from the spec: JSON serialization of `pb.CreateUserResponse`
(proto-generated file absent from `src/`); a nil user pointer encodes as
`null`.  No claim inspects this encoding. -/
def encodeCreateUserResponse (r : CreateUserResponse) : String :=
  "\x7b\"user\":" ++ (match r.user with | none => "null" | some u => encodeUser u) ++
    ",\"message\":" ++ jsonStr r.message ++
    ",\"success\":" ++ (if r.success then "true" else "false") ++ "\x7d"

/-- Modelled from the spec: JSON serialization of `pb.GetUserResponse`
(proto-generated file absent from `src/`).  No claim inspects this
encoding. -/
def encodeGetUserResponse (r : GetUserResponse) : String :=
  "\x7b\"user\":" ++ encodeUser r.user ++ "\x7d"

/-- `json.NewEncoder(w).Encode(v)` terminates the document with a
newline. -/
def jsonEncode (doc : String) : String := doc ++ "\n"

/-- The gateway's accumulating `var users []*pb.User` is a Go slice whose
zero value is nil, distinct from an empty slice: `none` models the nil
slice, `some l` a non-nil slice with elements `l`. -/
def GoUserSlice : Type := Option (List User)

/-- Go `append(users, u)`: appending to the nil slice yields a non-nil
one-element slice. -/
def goAppend (acc : GoUserSlice) (u : User) : GoUserSlice :=
  match acc with
  | none => some [u]
  | some l => some (l ++ [u])

/-- Go `len(users)`: zero on the nil slice. -/
def goLen (acc : GoUserSlice) : Nat :=
  match acc with
  | none => 0
  | some l => l.length

/-- `encoding/json` on the `users` slice: the nil slice serializes as
`null`, a non-nil slice as an array. -/
def encodeUserSlice (acc : GoUserSlice) : String :=
  match acc with
  | none => "null"
  | some l => "[" ++ String.intercalate "," (l.map encodeUser) ++ "]"

/-- `encoding/json` on the Go map holding the `users` slice and
`len(users)` under keys "users" and "count": Go serializes map keys in
sorted order, so `count` precedes `users`. -/
def encodeListBody (acc : GoUserSlice) : String :=
  "\x7b\"count\":" ++ toString (goLen acc) ++ ",\"users\":" ++ encodeUserSlice acc ++ "\x7d"

/-- One `stream.Recv()` outcome: a message, or a non-EOF stream error
message.  A stream is modelled as the finite list of outcomes before the
terminal `io.EOF`. -/
def RecvOutcome : Type := Except String User

/-- The gateway's drain loop over `stream.Recv()`: exhausting the list is
`io.EOF` (normal completion, the accumulated slice is returned); a
message is appended with Go `append`; any other error aborts the loop and
is returned. -/
def drainStream : List RecvOutcome → GoUserSlice → Except String GoUserSlice
  | [], acc => Except.ok acc
  | Except.ok u :: rest, acc => drainStream rest (goAppend acc u)
  | Except.error e :: _, _ => Except.error e

/-- `CreateUserHandler`: reject non-POST with 405; a JSON-decode failure
of the body (outcome supplied as `body`) yields 400 with the decode
error's message; then call the remote `CreateUser` (outcome supplied by
the oracle `rpc`, which receives the decoded request): any remote error
yields 500 with `err.Error()`, success yields 200 with the JSON-encoded
response. -/
def createUserHandler (method : HttpMethod) (body : Except String CreateUserRequest)
    (rpc : CreateUserRequest → Except GrpcError CreateUserResponse) : HttpResponse :=
  if method ≠ HttpMethod.post then httpError "Method not allowed" 405
  else
    match body with
    | Except.error e => httpError e 400
    | Except.ok req =>
      match rpc req with
      | Except.error e => httpError e.msg 500
      | Except.ok resp =>
        { status := 200
          contentType := some "application/json"
          body := jsonEncode (encodeCreateUserResponse resp) }

/-- `GetUserHandler`: reject non-GET with 405; an absent or empty `id`
query parameter yields 400; then call the remote `GetUser`: any remote
error — the handler inspects no status code — yields 404 with
`err.Error()`, success yields 200 with the JSON-encoded response. -/
def getUserHandler (method : HttpMethod) (queryId : String)
    (rpc : GetUserRequest → Except GrpcError GetUserResponse) : HttpResponse :=
  if method ≠ HttpMethod.get then httpError "Method not allowed" 405
  else if queryId = "" then httpError "id parameter required" 400
  else
    match rpc { id := queryId } with
    | Except.error e => httpError e.msg 404
    | Except.ok resp =>
      { status := 200
        contentType := some "application/json"
        body := jsonEncode (encodeGetUserResponse resp) }

/-- `ListUsersHandler`: reject non-GET with 405; call the remote
`ListUsers` with `Limit: 10` (outcome supplied by the oracle `rpc`:
either an immediate remote error, or the stream's `Recv` outcomes): an
immediate error yields 500; then drain the stream into the nil-initial
slice — a mid-stream error yields 500 — and on normal completion answer
200 with `{"users": ..., "count": len(users)}` JSON-encoded. -/
def listUsersHandler (method : HttpMethod)
    (rpc : Int → Except GrpcError (List RecvOutcome)) : HttpResponse :=
  if method ≠ HttpMethod.get then httpError "Method not allowed" 405
  else
    match rpc 10 with
    | Except.error e => httpError e.msg 500
    | Except.ok recvs =>
      match drainStream recvs none with
      | Except.error e => httpError e 500
      | Except.ok acc =>
        { status := 200
          contentType := some "application/json"
          body := jsonEncode (encodeListBody acc) }

/-! ## Operational model of a run (for the run-wide invariants) -/

/-- One service operation of a run: an incoming `CreateUser`, `GetUser`,
or `ListUsers` call (the latter with its limit and send-outcome
oracle). -/
inductive Op
  | create (req : CreateUserRequest)
  | getOp (idv : String)
  | listOp (limit : Int) (sendRes : Nat → Option String)

/-- The state reached after one operation: only `CreateUser` mutates the
server; `GetUser` and `ListUsers` hold the read lock and leave it
unchanged. -/
def step (s : UserServer) : Op → UserServer
  | Op.create req => (createUser s req).1
  | Op.getOp _ => s
  | Op.listOp _ _ => s

/-- The identifiers returned by the successful `CreateUser` calls of a
run, in call order. -/
def runCreatedIds (s : UserServer) : List Op → List String
  | [] => []
  | op :: rest =>
    match op with
    | Op.create req =>
      ((createUser s req).2.1.user.map User.id).toList ++
        runCreatedIds (createUser s req).1 rest
    | Op.getOp _ => runCreatedIds s rest
    | Op.listOp _ _ => runCreatedIds s rest

/-- Store well-formedness: every key in the map was drawn from the fresh
supply below the current high-water mark.  Holds of `newUserServer` and
is preserved by every operation; it makes first-match lookup coincide
with Go map lookup and the next fresh identifier distinct from every
stored key. -/
def WFServer (s : UserServer) : Prop :=
  ∀ p ∈ s.users, ∃ m, m < s.nextFresh ∧ p.1 = genId m

/-- Sample two-record store used by concrete witnesses. -/
def sampleUserA : User :=
  { id := "a", name := "Ann", email := "ann@x.com", age := 30, createdAt := "2020-01-01T00:00:00Z" }

/-- Second sample record. -/
def sampleUserB : User :=
  { id := "b", name := "Bob", email := "bob@x.com", age := 40, createdAt := "2020-01-01T00:00:00Z" }

/-- Sample server state holding the two sample records. -/
def sampleServer : UserServer :=
  { users := [("a", sampleUserA), ("b", sampleUserB)], nextFresh := 2, clock := 2 }

/-! ## Helper lemmas -/

theorem createUser_fail (s : UserServer) (req : CreateUserRequest)
    (h : req.name = "" ∨ req.email = "") :
    createUser s req =
      (s, { user := none, message := "Name and email are required", success := false },
       some "validation error") := by
  unfold createUser
  rw [if_pos h]

theorem createUser_ok (s : UserServer) (req : CreateUserRequest)
    (hn : req.name ≠ "") (he : req.email ≠ "") :
    createUser s req =
      ({ users := (genId s.nextFresh,
                   { id := genId s.nextFresh, name := req.name, email := req.email,
                     age := req.age, createdAt := fmtRFC3339 s.clock }) :: s.users
         nextFresh := s.nextFresh + 1
         clock := s.clock + 1 },
       { user := some { id := genId s.nextFresh, name := req.name, email := req.email,
                        age := req.age, createdAt := fmtRFC3339 s.clock }
         message := "User created successfully"
         success := true },
       none) := by
  unfold createUser
  rw [if_neg (not_or.mpr ⟨hn, he⟩)]

theorem lookupUser_isKey :
    ∀ (l : List (String × User)) (idv : String) (u : User),
      lookupUser l idv = some u → ∃ p ∈ l, p.1 = idv := by
  intro l
  induction l with
  | nil => intro idv u h; simp [lookupUser] at h
  | cons p rest ih =>
    rcases p with ⟨k, v⟩
    intro idv u h
    by_cases hk : k = idv
    · exact ⟨(k, v), List.mem_cons_self _ _, hk⟩
    · simp only [lookupUser, if_neg hk] at h
      rcases ih idv u h with ⟨q, hq, hq1⟩
      exact ⟨q, List.mem_cons_of_mem _ hq, hq1⟩

theorem listLoop_length_le (f : Nat → Option String) (limit : Int) (hl : 0 < limit) :
    ∀ (l : List (String × User)) (c : Nat),
      (listLoop f limit l c).1.length ≤ (limit - (c : Int)).toNat := by
  intro l
  induction l with
  | nil => intro c; simp [listLoop]
  | cons p rest ih =>
    rcases p with ⟨k, u⟩
    intro c
    by_cases hbr : 0 < limit ∧ limit ≤ (c : Int)
    · simp [listLoop, hbr]
    · have hc : (c : Int) < limit := by
        rcases not_and_or.mp hbr with h | h
        · exact absurd hl h
        · omega
      cases hf : f c with
      | some e => simp [listLoop, hbr, hf]
      | none =>
        have hrec := ih (c + 1)
        simp only [listLoop, if_neg hbr, hf, List.length_cons]
        omega

theorem listLoop_all (f : Nat → Option String) (limit : Int) (hl : limit ≤ 0)
    (hf : ∀ k, f k = none) :
    ∀ (l : List (String × User)) (c : Nat),
      listLoop f limit l c = (l.map Prod.snd, none) := by
  intro l
  induction l with
  | nil => intro c; simp [listLoop]
  | cons p rest ih =>
    rcases p with ⟨k, u⟩
    intro c
    have hbr : ¬ (0 < limit ∧ limit ≤ (c : Int)) := by omega
    simp [listLoop, hbr, hf c, ih (c + 1)]

theorem listLoop_no_error (f : Nat → Option String) (limit : Int)
    (hf : ∀ k, f k = none) :
    ∀ (l : List (String × User)) (c : Nat), (listLoop f limit l c).2 = none := by
  intro l
  induction l with
  | nil => intro c; simp [listLoop]
  | cons p rest ih =>
    rcases p with ⟨k, u⟩
    intro c
    by_cases hbr : 0 < limit ∧ limit ≤ (c : Int)
    · simp [listLoop, hbr]
    · simp [listLoop, hbr, hf c, ih (c + 1)]

theorem listLoop_first_fail (f : Nat → Option String) (limit : Int) (e : String) :
    ∀ (l : List (String × User)) (c k : Nat),
      f (c + k) = some e → (∀ j, j < k → f (c + j) = none) →
      (0 < limit → (c : Int) + (k : Int) < limit) → k < l.length →
      listLoop f limit l c = ((l.map Prod.snd).take k, some e) := by
  intro l
  induction l with
  | nil => intro c k _ _ _ hlen; simp at hlen
  | cons p rest ih =>
    rcases p with ⟨kk, u⟩
    intro c k hfk hprev hlim hlen
    have hbr : ¬ (0 < limit ∧ limit ≤ (c : Int)) := by
      intro hand
      have := hlim hand.1
      have := hand.2
      omega
    cases k with
    | zero =>
      have hf0 : f c = some e := by simpa using hfk
      simp [listLoop, hbr, hf0]
    | succ k' =>
      have hf0 : f c = none := by simpa using hprev 0 (Nat.succ_pos k')
      have hfk' : f ((c + 1) + k') = some e := by
        have harith : (c + 1) + k' = c + (k' + 1) := by omega
        rw [harith]; exact hfk
      have hprev' : ∀ j, j < k' → f ((c + 1) + j) = none := by
        intro j hj
        have harith : (c + 1) + j = c + (j + 1) := by omega
        rw [harith]
        exact hprev (j + 1) (by omega)
      have hlim' : 0 < limit → ((c + 1 : Nat) : Int) + (k' : Int) < limit := by
        intro h
        have := hlim h
        push_cast at this ⊢
        omega
      have hlen' : k' < rest.length := by simpa using Nat.lt_of_succ_lt_succ hlen
      have hrec := ih (c + 1) k' hfk' hprev' hlim' hlen'
      simp [listLoop, hbr, hf0, hrec]

theorem drainStream_error (e : String) :
    ∀ (pre : List User) (rest : List RecvOutcome) (acc : GoUserSlice),
      drainStream (pre.map Except.ok ++ Except.error e :: rest) acc = Except.error e := by
  intro pre
  induction pre with
  | nil => intro rest acc; simp [drainStream]
  | cons u pr ih => intro rest acc; simp [drainStream, ih]

theorem runCreatedIds_mem :
    ∀ (ops : List Op) (s : UserServer) (idv : String),
      idv ∈ runCreatedIds s ops → ∃ m, s.nextFresh ≤ m ∧ idv = genId m := by
  intro ops
  induction ops with
  | nil => intro s idv h; simp [runCreatedIds] at h
  | cons op rest ih =>
    intro s idv h
    cases op with
    | create req =>
      by_cases hval : req.name = "" ∨ req.email = ""
      · rw [runCreatedIds] at h
        simp only [createUser_fail s req hval] at h
        simp at h
        exact ih s idv h
      · push_neg at hval
        obtain ⟨hn, he⟩ := hval
        rw [runCreatedIds] at h
        simp only [createUser_ok s req hn he] at h
        simp at h
        rcases h with h | h
        · exact ⟨s.nextFresh, le_refl _, h⟩
        · rcases ih _ _ h with ⟨m, hm, heq⟩
          refine ⟨m, ?_, heq⟩
          simp only at hm
          omega
    | getOp i =>
      rw [runCreatedIds] at h
      exact ih s idv h
    | listOp lim f =>
      rw [runCreatedIds] at h
      exact ih s idv h

theorem runCreatedIds_nodup :
    ∀ (ops : List Op) (s : UserServer), (runCreatedIds s ops).Nodup := by
  intro ops
  induction ops with
  | nil => intro s; simp [runCreatedIds]
  | cons op rest ih =>
    intro s
    cases op with
    | create req =>
      by_cases hval : req.name = "" ∨ req.email = ""
      · rw [runCreatedIds]
        simp only [createUser_fail s req hval]
        simpa using ih s
      · push_neg at hval
        obtain ⟨hn, he⟩ := hval
        rw [runCreatedIds]
        simp only [createUser_ok s req hn he]
        simp only [Option.map_some', Option.toList_some, List.singleton_append]
        refine List.nodup_cons.mpr ⟨?_, ih _⟩
        intro hmem
        rcases runCreatedIds_mem rest _ _ hmem with ⟨m, hm, heq⟩
        have hinj := genId_injective heq
        simp only at hm
        omega
    | getOp i => rw [runCreatedIds]; exact ih s
    | listOp lim f => rw [runCreatedIds]; exact ih s

/-! ## Claim theorems -/

/-- C1, counterexample: the claim says every remote failure other than a
not-found on the lookup route yields HTTP 500 — and in particular that a
deadline-exceeded failure surfaces as 500.  But `GetUserHandler` maps
every remote error, deadline-exceeded included, to 404: on the lookup
route, a deadline-exceeded failure produces status 404, not 500. -/
theorem lookup_deadline_maps_404_not_500 :
    (getUserHandler HttpMethod.get "abc"
        (fun _ => Except.error
          { code := GrpcCode.deadlineExceeded, msg := "context deadline exceeded" })).status
      = 404 ∧
    (getUserHandler HttpMethod.get "abc"
        (fun _ => Except.error
          { code := GrpcCode.deadlineExceeded, msg := "context deadline exceeded" })).status
      ≠ 500 := by
  constructor
  · rfl
  · decide

/-- C1, amended: the gateway maps remote failures to HTTP status per
route, not per failure category — on the lookup route (`/users/get`)
every remote failure (not-found and deadline-exceeded alike) yields 404;
on the create route every remote failure yields 500; on the list route an
immediate remote failure yields 500 and so does any mid-stream error
(so a deadline-exceeded remote call surfaces as 500 on the create and
list routes, but as 404 on the lookup route — never as a hang). -/
theorem remote_failure_http_status_mapping
    (e : GrpcError) (idv : String) (req : CreateUserRequest)
    (pre : List User) (emsg : String) (rest : List RecvOutcome)
    (hid : idv ≠ "") :
    (getUserHandler HttpMethod.get idv (fun _ => Except.error e)).status = 404 ∧
    (createUserHandler HttpMethod.post (Except.ok req) (fun _ => Except.error e)).status = 500 ∧
    (listUsersHandler HttpMethod.get (fun _ => Except.error e)).status = 500 ∧
    (listUsersHandler HttpMethod.get
        (fun _ => Except.ok (pre.map Except.ok ++ Except.error emsg :: rest))).status = 500 := by
  refine ⟨?_, ?_, ?_, ?_⟩
  · simp [getUserHandler, hid, httpError]
  · simp [createUserHandler, httpError]
  · simp [listUsersHandler, httpError]
  · simp [listUsersHandler, drainStream_error, httpError]

/-- C1, witness for `remote_failure_http_status_mapping` at a concrete
deadline-exceeded error, lookup id, create body and failing stream. -/
theorem remote_failure_http_status_mapping_witness :
    ("abc" : String) ≠ "" ∧
    ((getUserHandler HttpMethod.get "abc"
        (fun _ => Except.error
          { code := GrpcCode.deadlineExceeded, msg := "context deadline exceeded" })).status = 404 ∧
     (createUserHandler HttpMethod.post
        (Except.ok { name := "Ann", email := "ann@x.com", age := 30 })
        (fun _ => Except.error
          { code := GrpcCode.deadlineExceeded, msg := "context deadline exceeded" })).status = 500 ∧
     (listUsersHandler HttpMethod.get
        (fun _ => Except.error
          { code := GrpcCode.deadlineExceeded, msg := "context deadline exceeded" })).status = 500 ∧
     (listUsersHandler HttpMethod.get
        (fun _ => Except.ok (([] : List User).map Except.ok ++
          Except.error "stream error" :: ([] : List RecvOutcome)))).status = 500) :=
  ⟨by decide,
   remote_failure_http_status_mapping
     { code := GrpcCode.deadlineExceeded, msg := "context deadline exceeded" }
     "abc" { name := "Ann", email := "ann@x.com", age := 30 }
     [] "stream error" [] (by decide)⟩

/-- C2, counterexample: the claim says a well-formed JSON create body
with an empty name or email yields HTTP 400.  But the validation failure
occurs in the remote `CreateUser`, reaches the gateway as a remote error,
and `CreateUserHandler` maps every remote error to 500: the concrete
request with empty name yields 500, not 400. -/
theorem validation_create_yields_500_not_400 :
    (createUserHandler HttpMethod.post
        (Except.ok { name := "", email := "ann@x.com", age := 30 })
        (fun r => unaryOutcome (createUser newUserServer r).2)).status = 500 ∧
    (createUserHandler HttpMethod.post
        (Except.ok { name := "", email := "ann@x.com", age := 30 })
        (fun r => unaryOutcome (createUser newUserServer r).2)).status ≠ 400 := by
  constructor
  · rfl
  · decide

/-- C2, amended: for every POST `/users/create` request whose body is
well-formed JSON but whose name or email field is empty, the gateway
responds with HTTP status 500 — only a JSON-decode failure of the body
yields 400 (the remote validation error is mapped like any other
backend error). -/
theorem validation_create_http_status (s : UserServer) (req : CreateUserRequest)
    (h : req.name = "" ∨ req.email = "") :
    (createUserHandler HttpMethod.post (Except.ok req)
        (fun r => unaryOutcome (createUser s r).2)).status = 500 := by
  simp [createUserHandler, createUser_fail s req h, unaryOutcome, httpError]

/-- C2, witness for `validation_create_http_status` at an empty-name
request against the freshly started server. -/
theorem validation_create_http_status_witness :
    (("" : String) = "" ∨ ("ann@x.com" : String) = "") ∧
    (createUserHandler HttpMethod.post
        (Except.ok { name := "", email := "ann@x.com", age := 30 })
        (fun r => unaryOutcome (createUser newUserServer r).2)).status = 500 :=
  ⟨Or.inl rfl, validation_create_http_status newUserServer _ (Or.inl rfl)⟩

/-- C3: a `CreateUser` call with empty name or empty email returns
`Success:false` with the descriptive message "Name and email are
required" AND propagates the error "validation error" to the transport
layer, and leaves the server state — in particular the store's size and
contents — exactly as it was. -/
theorem createUser_validation_failure_spec (s : UserServer) (req : CreateUserRequest)
    (h : req.name = "" ∨ req.email = "") :
    createUser s req =
      (s, { user := none, message := "Name and email are required", success := false },
       some "validation error") :=
  createUser_fail s req h

/-- C3, witness for `createUser_validation_failure_spec` at an
empty-name request against the freshly started server. -/
theorem createUser_validation_failure_spec_witness :
    (("" : String) = "" ∨ ("a@x" : String) = "") ∧
    createUser newUserServer { name := "", email := "a@x", age := 1 } =
      (newUserServer,
       { user := none, message := "Name and email are required", success := false },
       some "validation error") :=
  ⟨Or.inl rfl, createUser_validation_failure_spec newUserServer _ (Or.inl rfl)⟩

/-- C4: for all (name, email, age) with non-empty name and email, a
successful create followed by get with the returned identifier yields a
record equal to the created one in name, email and age, with a non-empty
identifier and a non-empty creation timestamp; and across any run of
operations, the identifiers returned by successful creates are pairwise
distinct (never reused). -/
theorem create_then_get_roundtrip :
    (∀ (s : UserServer) (req : CreateUserRequest),
        req.name ≠ "" → req.email ≠ "" →
        ∃ u : User,
          (createUser s req).2.1.user = some u ∧
          (createUser s req).2.2 = none ∧
          (createUser s req).2.1.success = true ∧
          getUser (createUser s req).1 { id := u.id } = (some { user := u }, none) ∧
          u.name = req.name ∧ u.email = req.email ∧ u.age = req.age ∧
          u.id ≠ "" ∧ u.createdAt ≠ "") ∧
    (∀ (s : UserServer) (ops : List Op), (runCreatedIds s ops).Nodup) := by
  constructor
  · intro s req hn he
    refine ⟨{ id := genId s.nextFresh, name := req.name, email := req.email,
              age := req.age, createdAt := fmtRFC3339 s.clock },
            ?_, ?_, ?_, ?_, rfl, rfl, rfl, genId_ne_empty _, fmtRFC3339_ne_empty _⟩
    · simp [createUser_ok s req hn he]
    · simp [createUser_ok s req hn he]
    · simp [createUser_ok s req hn he]
    · simp [createUser_ok s req hn he, getUser, lookupUser]
  · intro s ops
    exact runCreatedIds_nodup ops s

/-- C4, witness for `create_then_get_roundtrip` at a concrete valid
request against the freshly started server, and the empty run. -/
theorem create_then_get_roundtrip_witness :
    (("Ann" : String) ≠ "" ∧ ("ann@x.com" : String) ≠ "") ∧
    ((∃ u : User,
        (createUser newUserServer { name := "Ann", email := "ann@x.com", age := 30 }).2.1.user
          = some u ∧
        (createUser newUserServer { name := "Ann", email := "ann@x.com", age := 30 }).2.2
          = none ∧
        (createUser newUserServer { name := "Ann", email := "ann@x.com", age := 30 }).2.1.success
          = true ∧
        getUser (createUser newUserServer { name := "Ann", email := "ann@x.com", age := 30 }).1
            { id := u.id } = (some { user := u }, none) ∧
        u.name = "Ann" ∧ u.email = "ann@x.com" ∧ u.age = 30 ∧
        u.id ≠ "" ∧ u.createdAt ≠ "") ∧
     (runCreatedIds newUserServer
        [Op.create { name := "Ann", email := "ann@x.com", age := 30 }]).Nodup) :=
  ⟨⟨by decide, by decide⟩,
   ⟨create_then_get_roundtrip.1 newUserServer
      { name := "Ann", email := "ann@x.com", age := 30 } (by decide) (by decide),
    create_then_get_roundtrip.2 newUserServer
      [Op.create { name := "Ann", email := "ann@x.com", age := 30 }]⟩⟩

/-- C5: `GetUser` fails — with the not-found error naming the missing
identifier, and a nil (absent) response, never a partial or default
record — exactly when no record with that identifier is in the store;
when the record exists it is returned unchanged with no error. -/
theorem getUser_not_found_iff_absent (s : UserServer) (idv : String) :
    (lookupUser s.users idv = none →
      getUser s { id := idv } =
        (none, some ("user with id " ++ idv ++ " not found"))) ∧
    (∀ u : User, lookupUser s.users idv = some u →
      getUser s { id := idv } = (some { user := u }, none)) := by
  constructor
  · intro h; simp [getUser, h]
  · intro u h; simp [getUser, h]

/-- C5, witness for `getUser_not_found_iff_absent`: the absent branch on
the empty store and the present branch on a store holding one created
record. -/
theorem getUser_not_found_iff_absent_witness :
    getUser newUserServer { id := "ghost" } =
      (none, some ("user with id " ++ "ghost" ++ " not found")) ∧
    getUser (createUser newUserServer { name := "Ann", email := "a@x", age := 30 }).1
        { id := genId 0 } =
      (some { user := { id := genId 0, name := "Ann", email := "a@x", age := 30,
                        createdAt := fmtRFC3339 0 } }, none) :=
  ⟨(getUser_not_found_iff_absent newUserServer "ghost").1 (by decide),
   (getUser_not_found_iff_absent
      (createUser newUserServer { name := "Ann", email := "a@x", age := 30 }).1
      (genId 0)).2 _ (by decide)⟩

/-- C6: for every store state and limit, `ListUsers` emits at most
`limit` records when `limit > 0` (whatever the send outcomes), and emits
exactly all currently-stored records when `limit ≤ 0` — in particular
when `limit = 0` — provided the sends are delivered. -/
theorem listUsers_limit_semantics (s : UserServer) (limit : Int)
    (sendRes : Nat → Option String) :
    (0 < limit → ((listUsers s limit sendRes).1.length : Int) ≤ limit) ∧
    (limit ≤ 0 → (∀ k, sendRes k = none) →
      (listUsers s limit sendRes).1 = s.users.map Prod.snd) := by
  constructor
  · intro hl
    have h := listLoop_length_le sendRes limit hl s.users 0
    unfold listUsers
    omega
  · intro hl hf
    unfold listUsers
    rw [listLoop_all sendRes limit hl hf s.users 0]

/-- C6, witness for `listUsers_limit_semantics`: on the two-record sample
store, limit 1 emits at most one record and limit 0 emits both. -/
theorem listUsers_limit_semantics_witness :
    (((listUsers sampleServer 1 (fun _ => none)).1.length : Int) ≤ 1) ∧
    (listUsers sampleServer 0 (fun _ => none)).1 = sampleServer.users.map Prod.snd :=
  ⟨(listUsers_limit_semantics sampleServer 1 (fun _ => none)).1 (by decide),
   (listUsers_limit_semantics sampleServer 0 (fun _ => none)).2 (by decide) (fun _ => rfl)⟩

/-- C7: `ListUsers` ends the stream with no trailing error whenever every
attempted send is delivered (in particular when enumeration is
exhausted); and if the send numbered `k` is the first to fail, the stream
ends immediately with that send's error, exactly the `k` records before
it having been sent and none after. -/
theorem listUsers_stream_termination (s : UserServer) (limit : Int)
    (sendRes : Nat → Option String) :
    ((∀ k, sendRes k = none) → (listUsers s limit sendRes).2 = none) ∧
    (∀ (k : Nat) (e : String),
        sendRes k = some e → (∀ j, j < k → sendRes j = none) →
        (0 < limit → (k : Int) < limit) → k < s.users.length →
        listUsers s limit sendRes = ((s.users.map Prod.snd).take k, some e)) := by
  constructor
  · intro hf
    exact listLoop_no_error sendRes limit hf s.users 0
  · intro k e hk hprev hlim hlen
    have h := listLoop_first_fail sendRes limit e s.users 0 k
      (by simpa using hk) (by intro j hj; simpa using hprev j hj)
      (by intro h0; have := hlim h0; omega) hlen
    simpa [listUsers] using h

/-- C7, witness for `listUsers_stream_termination`: on the two-record
sample store with unlimited listing, all-delivered sends end the stream
with no error, and a failure of send number 1 ends it with that error
after exactly one sent record. -/
theorem listUsers_stream_termination_witness :
    (listUsers sampleServer 0 (fun _ => none)).2 = none ∧
    listUsers sampleServer 0 (fun k => if k = 1 then some "send failed" else none) =
      ((sampleServer.users.map Prod.snd).take 1, some "send failed") :=
  ⟨(listUsers_stream_termination sampleServer 0 (fun _ => none)).1 (fun _ => rfl),
   (listUsers_stream_termination sampleServer 0
      (fun k => if k = 1 then some "send failed" else none)).2 1 "send failed"
     (by decide)
     (by intro j hj; have hj0 : j = 0 := Nat.lt_one_iff.mp hj; subst hj0; rfl)
     (by intro h0; omega)
     (by decide)⟩

/-- C8: every operation in scope (create, get, list) preserves the store
invariant: a well-formed store stays well-formed, every stored record is
still found unchanged under its identifier afterwards (no entry removed,
no field modified), and the store's size never decreases. -/
theorem ops_preserve_store_invariant (s : UserServer) (op : Op) (hwf : WFServer s) :
    WFServer (step s op) ∧
    (∀ (idv : String) (u : User),
        lookupUser s.users idv = some u →
        lookupUser (step s op).users idv = some u) ∧
    s.users.length ≤ (step s op).users.length := by
  cases op with
  | getOp i => exact ⟨hwf, fun _ _ h => h, le_refl _⟩
  | listOp lim f => exact ⟨hwf, fun _ _ h => h, le_refl _⟩
  | create req =>
    by_cases hval : req.name = "" ∨ req.email = ""
    · have hstep : step s (Op.create req) = s := by
        simp [step, createUser_fail s req hval]
      rw [hstep]
      exact ⟨hwf, fun _ _ h => h, le_refl _⟩
    · push_neg at hval
      obtain ⟨hn, he⟩ := hval
      have hstep : step s (Op.create req) =
          { users := (genId s.nextFresh,
                      { id := genId s.nextFresh, name := req.name, email := req.email,
                        age := req.age, createdAt := fmtRFC3339 s.clock }) :: s.users
            nextFresh := s.nextFresh + 1
            clock := s.clock + 1 } := by
        simp [step, createUser_ok s req hn he]
      rw [hstep]
      refine ⟨?_, ?_, ?_⟩
      · intro p hp
        rcases List.mem_cons.mp hp with hh | hh
        · exact ⟨s.nextFresh, Nat.lt_succ_self _, by simp [hh]⟩
        · rcases hwf p hh with ⟨m, hm, heq⟩
          exact ⟨m, Nat.lt_succ_of_lt hm, heq⟩
      · intro idv u hl
        have hkey : ∃ m, m < s.nextFresh ∧ idv = genId m := by
          rcases lookupUser_isKey s.users idv u hl with ⟨p, hp, hp1⟩
          rcases hwf p hp with ⟨m, hm, heq⟩
          exact ⟨m, hm, by rw [← hp1, heq]⟩
        rcases hkey with ⟨m, hm, heq⟩
        have hne : ¬ (genId s.nextFresh = idv) := by
          rw [heq]
          intro hcontra
          have := genId_injective hcontra
          omega
        simp [lookupUser, hne, hl]
      · simp

/-- C8, witness for `ops_preserve_store_invariant`: a create against the
freshly started (trivially well-formed) server. -/
theorem ops_preserve_store_invariant_witness :
    WFServer (step newUserServer
        (Op.create { name := "Ann", email := "ann@x.com", age := 30 })) ∧
    (∀ (idv : String) (u : User),
        lookupUser newUserServer.users idv = some u →
        lookupUser (step newUserServer
            (Op.create { name := "Ann", email := "ann@x.com", age := 30 })).users idv
          = some u) ∧
    newUserServer.users.length ≤
      (step newUserServer
        (Op.create { name := "Ann", email := "ann@x.com", age := 30 })).users.length :=
  ops_preserve_store_invariant newUserServer
    (Op.create { name := "Ann", email := "ann@x.com", age := 30 })
    (by intro p hp; simp [newUserServer] at hp)

/-- C9, counterexample: the claim says every record held in the store has
a non-negative age.  But `CreateUser` performs no check on the age: the
concrete call with age -1 succeeds and the stored record's age is -1,
which is negative. -/
theorem negative_age_stored :
    (createUser newUserServer { name := "Ann", email := "ann@x.com", age := -1 }).2.1.success
      = true ∧
    lookupUser
        (createUser newUserServer { name := "Ann", email := "ann@x.com", age := -1 }).1.users
        (genId 0) =
      some { id := genId 0, name := "Ann", email := "ann@x.com", age := -1,
             createdAt := fmtRFC3339 0 } ∧
    ¬ (0 ≤ (-1 : Int)) := by
  refine ⟨rfl, by decide, by decide⟩

/-- C9, amended: a successful `CreateUser` stores exactly the requested
age, with no sign restriction — no non-negativity is enforced anywhere,
so a negative requested age yields a stored record with negative age. -/
theorem stored_age_equals_requested (s : UserServer) (req : CreateUserRequest)
    (hn : req.name ≠ "") (he : req.email ≠ "") :
    ∃ u : User,
      (createUser s req).2.1.user = some u ∧ u.age = req.age ∧
      lookupUser (createUser s req).1.users u.id = some u := by
  refine ⟨{ id := genId s.nextFresh, name := req.name, email := req.email,
            age := req.age, createdAt := fmtRFC3339 s.clock }, ?_, rfl, ?_⟩
  · simp [createUser_ok s req hn he]
  · simp [createUser_ok s req hn he, lookupUser]

/-- C9, witness for `stored_age_equals_requested` at a concrete request
with negative age. -/
theorem stored_age_equals_requested_witness :
    (("Ann" : String) ≠ "" ∧ ("ann@x.com" : String) ≠ "") ∧
    (∃ u : User,
      (createUser newUserServer { name := "Ann", email := "ann@x.com", age := -1 }).2.1.user
        = some u ∧
      u.age = (-1 : Int) ∧
      lookupUser
          (createUser newUserServer { name := "Ann", email := "ann@x.com", age := -1 }).1.users
          u.id = some u) :=
  ⟨⟨by decide, by decide⟩,
   stored_age_equals_requested newUserServer
     { name := "Ann", email := "ann@x.com", age := -1 } (by decide) (by decide)⟩

/-- C10: a GET `/users/list` whose stream yields zero records — here, the
remote service enumerating the freshly started, empty store — answers 200
with the `users` field serialized as JSON `null` (the zero value of the
never-appended Go slice), not as an empty array, and `count` 0. -/
theorem empty_list_serializes_users_null :
    listUsersHandler HttpMethod.get
        (fun limit => Except.ok
          ((listUsers newUserServer limit (fun _ => none)).1.map Except.ok)) =
      { status := 200
        contentType := some "application/json"
        body := "\x7b\"count\":0,\"users\":null\x7d\n" } := by
  rfl

end GrpcSample
